import Mathlib

/-!
Verification development for the Transkribus dataset extraction pipeline
(`src/dataset.py` of aarhusstadsarkiv/huggingface-datasets).

The Python source is shallowly embedded below:
  * XML documents are represented as already-lexed trees (`Xml`); the
    xmltodict library's conversion to Python dicts (including its
    `force_list` behaviour) is modelled by `xmlToDVal` / `parse_xml_model`
    producing dynamic values (`DVal`).
  * Fallible dynamic-dict navigation (Python `KeyError` / `TypeError` /
    `ValueError` / `FileNotFoundError`) is modelled with `Except String`.
  * The regular expression
    `\s*<TranskribusMetadata[^>]*/?>([^<]*</TranskribusMetadata>)?` and
    `re.sub` with the empty replacement are modelled by a hand-written
    leftmost, non-overlapping scanner (`matchTagAt`, `subScanF`).
  * The filesystem is a finite tree (`Entry`); file reads go through an
    explicit path → contents association list.
  * Python generators become explicit lists; a run that raises after
    yielding some records is a pair (records yielded so far, optional error).
-/

namespace Transkribus

/-- An XML document tree: element name, attributes (strings), children.
This is the input of the xmltodict parsing model. -/
inductive Xml where
  | elem (tag : String) (attrs : List (String × String)) (children : List Xml)
  | text (s : String)

/-- Dynamic Python values as produced by `xmltodict.parse`: strings,
insertion-ordered dicts (association lists), lists, and `None` for empty
elements. -/
inductive DVal where
  | str (s : String)
  | dict (entries : List (String × DVal))
  | list (vs : List DVal)
  | null

/-- xmltodict push-one-child step: first occurrence of a key stores the bare
value (or a one-element list when the key is in `force`); a repeated key
turns the stored value into a list / appends to it. -/
def addKV (force : List String) (m : List (String × DVal)) (k : String) (v : DVal) :
    List (String × DVal) :=
  match m.find? (fun p => p.1 == k) with
  | none => if force.contains k then m ++ [(k, DVal.list [v])] else m ++ [(k, v)]
  | some (_, old) =>
      let newV : DVal :=
        match old with
        | DVal.list vs => DVal.list (vs ++ [v])
        | o => DVal.list [o, v]
      m.map (fun p => if p.1 == k then (k, newV) else p)

mutual

/-- Model of xmltodict's conversion of one XML element: an element with no
attributes and no children becomes `None`; one with no attributes and a
single text child becomes that string; otherwise a dict of `@`-prefixed
attributes followed by the grouped children. -/
def xmlToDVal (force : List String) : Xml → DVal
  | Xml.text t => DVal.str t
  | Xml.elem _ attrs children =>
      match attrs, children with
      | [], [] => DVal.null
      | [], [Xml.text t] => DVal.str t
      | _, _ =>
          DVal.dict (xmlChildren force
            (attrs.map (fun p => ("@" ++ p.1, DVal.str p.2))) children)

/-- Push every child of an element into the accumulated dict, in order. -/
def xmlChildren (force : List String) (acc : List (String × DVal)) :
    List Xml → List (String × DVal)
  | [] => acc
  | c :: cs =>
      match c with
      | Xml.text t => xmlChildren force (addKV force acc "#text" (DVal.str t)) cs
      | Xml.elem tag _ _ => xmlChildren force (addKV force acc tag (xmlToDVal force c)) cs

end

/-- Model of `xmltodict.parse` on a whole document: the result is a
one-entry dict mapping the root element's tag to its converted value
(`parse_xml(text, force_list=...)` in the source). -/
def parse_xml_model (force : List String) (x : Xml) : DVal :=
  match x with
  | Xml.elem tag _ _ => DVal.dict [(tag, xmlToDVal force x)]
  | Xml.text t => DVal.str t

/-- Python `value[key]` on a dict-shaped dynamic value: `KeyError` when the
key is missing, `TypeError` when the value is not a dict. -/
def dGet (v : DVal) (k : String) : Except String DVal :=
  match v with
  | DVal.dict m =>
      match m.find? (fun p => p.1 == k) with
      | some p => Except.ok p.2
      | none => Except.error ("KeyError: " ++ k)
  | _ => Except.error ("TypeError: value for " ++ k ++ " is not subscriptable")

/-- Require a dynamic value to be a list (the source iterates over it). -/
def asList (v : DVal) : Except String (List DVal) :=
  match v with
  | DVal.list vs => Except.ok vs
  | _ => Except.error "TypeError: not a list"

/-- Require a dynamic value to be a string. -/
def asStr (v : DVal) : Except String String :=
  match v with
  | DVal.str s => Except.ok s
  | _ => Except.error "TypeError: not a str"

/-- Left-to-right effectful map, mirroring a Python list comprehension
(the first exception aborts the whole comprehension). -/
def exMapM (f : α → Except String β) : List α → Except String (List β)
  | [] => Except.ok []
  | a :: as => do
      let b ← f a
      let bs ← exMapM f as
      Except.ok (b :: bs)

/-- Python `int(s)` restricted to an optional sign followed by decimal
digits (whitespace/underscore acceptance of CPython is not exercised by
this code base's inputs). -/
def digitsToNat (ds : List Char) : Nat :=
  ds.foldl (fun n c => 10 * n + (c.toNat - 48)) 0

/-- Model of Python `int(str)`: `ValueError` on anything that is not an
optional sign followed by one or more decimal digits. -/
def pyInt (s : String) : Except String Int :=
  match s.data with
  | [] => Except.error "ValueError: invalid literal for int"
  | '-' :: ds =>
      if ds ≠ [] ∧ ds.all Char.isDigit then Except.ok (-(digitsToNat ds : Int))
      else Except.error "ValueError: invalid literal for int"
  | '+' :: ds =>
      if ds ≠ [] ∧ ds.all Char.isDigit then Except.ok (digitsToNat ds : Int)
      else Except.error "ValueError: invalid literal for int"
  | ds =>
      if ds.all Char.isDigit then Except.ok (digitsToNat ds : Int)
      else Except.error "ValueError: invalid literal for int"

/-- Python `int(v)` on a dynamic value: only strings can be converted here
(`TypeError` otherwise, as for dicts/lists/None). -/
def pyIntD (v : DVal) : Except String Int :=
  match v with
  | DVal.str s => pyInt s
  | _ => Except.error "TypeError: int() argument"

/-- One hexadecimal digit, as used by percent-decoding. -/
def hexVal (c : Char) : Option Nat :=
  if '0' ≤ c ∧ c ≤ '9' then some (c.toNat - 48)
  else if 'a' ≤ c ∧ c ≤ 'f' then some (c.toNat - 87)
  else if 'A' ≤ c ∧ c ≤ 'F' then some (c.toNat - 55)
  else none

/-- Character-list core of `urllib.parse.unquote`: `%XY` with two hex
digits decodes to the byte `16*X+Y`; a `%` not followed by two hex digits
stays literal.  (Multi-byte UTF-8 sequences are out of scope: the hrefs in
this code base only use ASCII escapes such as `%20`.) -/
def unquoteList : List Char → List Char
  | '%' :: a :: b :: rest =>
      match hexVal a, hexVal b with
      | some x, some y => Char.ofNat (16 * x + y) :: unquoteList rest
      | _, _ => '%' :: unquoteList (a :: b :: rest)
  | c :: rest => c :: unquoteList rest
  | [] => []

/-- Model of `urllib.parse.unquote` on a string. -/
def unquote (s : String) : String := String.mk (unquoteList s.data)

/-! ## The regular expression
`transkribus_metadata_tag_pattern =
  \s*<TranskribusMetadata[^>]*/?>([^<]*</TranskribusMetadata>)?`
applied with `re.sub(pattern, "", xml)` (leftmost, non-overlapping). -/

/-- Python `\s` on the ASCII range: space and `\t\n\x0b\x0c\r`. -/
def isPyWS (c : Char) : Bool :=
  c = ' ' || c = '\t' || c = '\n' || c = '\x0b' || c = '\x0c' || c = '\r'

/-- The literal `<TranskribusMetadata` opening the tag. -/
def openLit : List Char := "<TranskribusMetadata".data

/-- The literal `</TranskribusMetadata>` closing tag. -/
def closeLit : List Char := "</TranskribusMetadata>".data

/-- Strip an exact literal prefix, or fail. -/
def stripLit : List Char → List Char → Option (List Char)
  | [], cs => some cs
  | _ :: _, [] => none
  | l :: ls, c :: cs => if c = l then stripLit ls cs else none

/-- `[^>]*/?>`: skip to the first `>` and consume it (fail when there is
none).  Because `[^>]*` is greedy and cannot cross a `>`, the optional `/`
is absorbed by it, so the whole group consumes exactly through the first
`>`. -/
def consumeToGt (cs : List Char) : Option (List Char) :=
  match cs.dropWhile (fun c => c ≠ '>') with
  | '>' :: rest => some rest
  | _ => none

/-- `([^<]*</TranskribusMetadata>)?`: the greedy `[^<]*` must stop at the
first `<`; the group matches exactly when the closing literal starts
there, and otherwise matches the empty string. -/
def tryClose (cs : List Char) : List Char :=
  match stripLit closeLit (cs.dropWhile (fun c => c ≠ '<')) with
  | some rest => rest
  | none => cs

/-- Attempt to match the whole pattern at the current position: greedy
`\s*`, the opening literal, through the first `>`, then the optional
closing group.  Returns the suffix after the match. -/
def matchTagAt (cs : List Char) : Option (List Char) := do
  let r1 ← stripLit openLit (cs.dropWhile isPyWS)
  let r2 ← consumeToGt r1
  some (tryClose r2)

/-- Fuelled `re.sub(pattern, "", ·)` scan: at each position try the
pattern; on a match drop it and continue after it, otherwise keep the
character.  Any fuel of at least the list length is enough, since a match
always consumes at least the opening literal. -/
def subScanF : Nat → List Char → List Char
  | 0, cs => cs
  | _ + 1, [] => []
  | fu + 1, c :: cs =>
      match matchTagAt (c :: cs) with
      | some rest => subScanF fu rest
      | none => c :: subScanF fu cs

/-- `remove_transkribus_metadata`: delete every occurrence of the
proprietary metadata tag (and the whitespace its pattern swallows). -/
def remove_transkribus_metadata (xml : String) : String :=
  String.mk (subScanF xml.data.length xml.data)

/-! ## Tree Locator (`find_file`) -/

/-- A filesystem entry: a plain file or a directory with its children in
iteration order. -/
inductive Entry where
  | file (name : String)
  | dir (name : String) (children : List Entry)

/-- `f.is_file() and f.name == name`. -/
def isFileNamed (name : String) : Entry → Bool
  | Entry.file n => n == name
  | Entry.dir _ _ => false

mutual

/-- Body of `find_file` on a directory entry (paths are component lists,
`p` being the path of the PARENT of the entry).  When a file with the
target name is among the immediate children, yield exactly that path and
do not descend; otherwise recurse into the subdirectories depth-first.
A `file` entry yields nothing (the source only recurses into directories;
mapping files to the empty result is equivalent). -/
def findFileE (name : String) (p : List String) : Entry → List (List String)
  | Entry.file _ => []
  | Entry.dir d cs =>
      if cs.any (isFileNamed name) then [(p ++ [d]) ++ [name]]
      else findFileKids name (p ++ [d]) cs

/-- Depth-first concatenation of the recursive searches of the children. -/
def findFileKids (name : String) (p : List String) : List Entry → List (List String)
  | [] => []
  | c :: cs => findFileE name p c ++ findFileKids name p cs

end

/-- `find_file(path, name)`: `NotADirectoryError` unless the argument is a
directory, otherwise the lazy sequence of matches as a list. -/
def find_file (name : String) (e : Entry) : Except String (List (List String)) :=
  match e with
  | Entry.file _ => Except.error "NotADirectoryError"
  | Entry.dir d cs => Except.ok (findFileE name [] (Entry.dir d cs))

/-! ## Record Assembler (`dataset_generator_transkribus`) -/

/-- One yielded page record (the dict literal of lines 60–66).  Note that
`sequence` holds `struct["@ORDER"]`, a string: the source applies `int()`
to `docId` but not to the order attribute. -/
structure PageRecord where
  image : String
  doc_id : Int
  sequence : String
  alto : String
  page : String

/-- Association-list lookup used for both the file-id → path dict and the
path → file-contents filesystem view. -/
def dLookup (m : List (String × String)) (k : String) : Option String :=
  (m.find? (fun p => p.1 == k)).map (fun p => p.2)

/-- Python dict insertion: overwrite in place, or append a new key. -/
def dictInsert (m : List (String × String)) (k v : String) : List (String × String) :=
  if m.any (fun p => p.1 == k) then
    m.map (fun p => if p.1 == k then (k, v) else p)
  else m ++ [(k, v)]

/-- `Path.read_text` against the bundle's file table (joined path →
contents); missing files raise `FileNotFoundError`. -/
def readText (files : List (String × String)) (p : String) : Except String String :=
  match dLookup files p with
  | some t => Except.ok t
  | none => Except.error ("FileNotFoundError: " ++ p)

/-- `Path.joinpath` (the relative paths of this code base never start with
a separator). -/
def pathJoin (dir rel : String) : String := dir ++ "/" ++ rel

/-- Python `str.startswith` on character lists. -/
def charsStartWith : List Char → List Char → Bool
  | _, [] => true
  | [], _ :: _ => false
  | a :: as, b :: bs => a = b && charsStartWith as bs

/-- Python `i.startswith(pre)`. -/
def strStartsWith (i pre : String) : Bool := charsStartWith i.data pre.data

/-- `next((i for f in fptrs if (i := f["ns3:area"]["@FILEID"]).startswith(pre)), None)`:
walk the pointer list, extracting each file id in turn, and stop at the
first id with the given prefix. -/
def firstId (pre : String) : List DVal → Except String (Option String)
  | [] => Except.ok none
  | f :: fs => do
      let area ← dGet f "ns3:area"
      let i ← asStr (← dGet area "@FILEID")
      if strStartsWith i pre then Except.ok (some i) else firstId pre fs

/-- `paths[k]` with Python `KeyError` semantics. -/
def keyLookup (paths : List (String × String)) (k : String) : Except String String :=
  match dLookup paths k with
  | some v => Except.ok v
  | none => Except.error ("KeyError: " ++ k)

/-- `paths[img_id]` for the mandatory image reference: `paths[None]` when
no pointer id carried the image prefix (a `KeyError` either way). -/
def requireImgKey : Option String → Except String String
  | some i => Except.ok i
  | none => Except.error "KeyError: None"

/-- Line 64: `paths[alto_id]` + `read_text` when the ALTO id is present,
the empty string when it is absent. -/
def resolveAlto (dir : String) (paths files : List (String × String)) :
    Option String → Except String String
  | none => Except.ok ""
  | some i => do
      let rel ← keyLookup paths i
      readText files (pathJoin dir rel)

/-- Line 65: like `resolveAlto` for the PAGE layer, additionally stripping
the proprietary metadata tag. -/
def resolvePage (dir : String) (paths files : List (String × String)) :
    Option String → Except String String
  | none => Except.ok ""
  | some i => do
      let rel ← keyLookup paths i
      let t ← readText files (pathJoin dir rel)
      Except.ok (remove_transkribus_metadata t)

/-- The loop body of lines 54–66: classify the division's file-pointer ids
by prefix, resolve the mandatory image path, read the optional ALTO and
PAGE layers (the PAGE layer stripped of the proprietary metadata tag), and
build the record.  Evaluation order follows the source: the three ids, then
the dict values in key order (image, doc_id, sequence, alto, page). -/
def assemble_page_record (dir : String) (docId : Int)
    (paths : List (String × String)) (files : List (String × String))
    (struct : DVal) : Except String PageRecord := do
  let fptrs ← asList (← dGet struct "ns3:fptr")
  let imgId ← firstId "IMG_" fptrs
  let altoId ← firstId "ALTO_" fptrs
  let pageId ← firstId "PAGEXML_" fptrs
  let imgKey ← requireImgKey imgId
  let imgRel ← keyLookup paths imgKey
  let image := pathJoin dir imgRel
  let order ← asStr (← dGet struct "@ORDER")
  let alto ← resolveAlto dir paths files altoId
  let page ← resolvePage dir paths files pageId
  Except.ok { image := image, doc_id := docId, sequence := order, alto := alto, page := page }

/-- The inner `for struct in ...` loop: records yielded so far, plus the
error that aborted the loop, if any. -/
def process_structs (dir : String) (docId : Int)
    (paths : List (String × String)) (files : List (String × String)) :
    List DVal → List PageRecord × Option String
  | [] => ([], none)
  | d :: ds =>
      match assemble_page_record dir docId paths files d with
      | Except.error e => ([], some e)
      | Except.ok r =>
          let rest := process_structs dir docId paths files ds
          (r :: rest.1, rest.2)

/-- Line 40: `[int(c["colId"]) for c in metadata["trpDocMetadata"]["collectionList"]["colList"]]`. -/
def getDocCollections (metadata : DVal) : Except String (List Int) := do
  let tdm ← dGet metadata "trpDocMetadata"
  let cl ← dGet tdm "collectionList"
  let colList ← asList (← dGet cl "colList")
  exMapM (fun c => do pyIntD (← dGet c "colId")) colList

/-- Lines 47–52: extract `(@ID, raw href)` for every file entry, group by
group, in document order (the href is percent-decoded later, when the dict
is built). -/
def getFileEntries (mets : DVal) : Except String (List (String × String)) := do
  let m ← dGet mets "ns3:mets"
  let fileSec ← dGet m "ns3:fileSec"
  let outerGrp ← dGet fileSec "ns3:fileGrp"
  let groups ← asList (← dGet outerGrp "ns3:fileGrp")
  let entryLists ← exMapM (fun g => do
    let fs ← asList (← dGet g "ns3:file")
    exMapM (fun f => do
      let fid ← asStr (← dGet f "@ID")
      let loc ← dGet f "ns3:FLocat"
      let href ← asStr (← dGet loc "@ns2:href")
      Except.ok (fid, href)) fs) groups
  Except.ok entryLists.flatten

/-- The dict comprehension of lines 48–52: `{id: unquote(href) ...}`, later
keys overwriting earlier ones. -/
def buildPaths (entries : List (String × String)) : List (String × String) :=
  entries.foldl (fun m p => dictInsert m p.1 (unquote p.2)) []

/-- Line 54's navigation to the list of inner structural divisions:
`mets["ns3:mets"]["ns3:structMap"]["ns3:div"]["ns3:div"]`. -/
def getDivs (mets : DVal) : Except String (List DVal) := do
  let m ← dGet mets "ns3:mets"
  let sm ← dGet m "ns3:structMap"
  let outer ← dGet sm "ns3:div"
  asList (← dGet outer "ns3:div")

/-- A located bundle: the directory holding the discovered `metadata.xml`
(`metadata_path.parent`), the parsed metadata and `mets.xml` documents, and
the readable files keyed by joined path. -/
structure Bundle where
  dir : String
  metadata : Xml
  mets : Xml
  files : List (String × String)

/-- Lines 44–52 and 54: everything the bundle evaluates after passing the
collection filter — `doc_id` (int-converted), `title` (looked up, unused),
the path dict, and the division list. -/
def parseBundleRest (b : Bundle) (md : DVal) :
    Except String (Int × List (String × String) × List DVal) := do
  let tdm ← dGet md "trpDocMetadata"
  let docId ← pyIntD (← dGet tdm "docId")
  let _title ← dGet tdm "title"
  let metsD := parse_xml_model [] b.mets
  let entries ← getFileEntries metsD
  let divs ← getDivs metsD
  Except.ok (docId, buildPaths entries, divs)

/-- Lines 36–66, one iteration of the bundle loop.  `Sum.inl out` means
the run ends at this bundle with output `out`: either the filter-miss
`return` of line 42 (no error) or a raised error; `Sum.inr rs` means the
bundle contributed the records `rs` and the loop moves to the next one. -/
def bundleStep (collections : List Int) (b : Bundle) :
    (List PageRecord × Option String) ⊕ List PageRecord :=
  let md := parse_xml_model ["colList"] b.metadata
  match getDocCollections md with
  | Except.error e => Sum.inl ([], some e)
  | Except.ok docCols =>
      if !collections.isEmpty && !collections.any (fun c => docCols.contains c) then
        Sum.inl ([], none)
      else
        match parseBundleRest b md with
        | Except.error e => Sum.inl ([], some e)
        | Except.ok (docId, paths, divs) =>
            match process_structs b.dir docId paths b.files divs with
            | (rs, some e) => Sum.inl (rs, some e)
            | (rs, none) => Sum.inr rs

/-- `dataset_generator_transkribus(root, collections)`, with the bundles
located by `find_file(root, "metadata.xml")` abstracted as a list in
discovery order.  Per bundle: parse the metadata with
`force_list=("colList",)`, compute the collection ids, and — when a
non-empty filter does not intersect them — `return`, ending the whole run
with no error.  Otherwise parse the rest and yield one record per
structural division.  The result is (records yielded, optional raised
error). -/
def dataset_generator_transkribus (collections : List Int) :
    List Bundle → List PageRecord × Option String
  | [] => ([], none)
  | b :: bs =>
      match bundleStep collections b with
      | Sum.inl out => out
      | Sum.inr rs =>
          let rest := dataset_generator_transkribus collections bs
          (rs ++ rest.1, rest.2)

/-! ## Concrete fixtures used by witnesses and counterexamples -/

/-- A file-pointer entry of the structural map:
`<fptr><area FILEID=i/></fptr>` as converted by xmltodict. -/
def mkFptr (i : String) : DVal :=
  DVal.dict [("ns3:area", DVal.dict [("@FILEID", DVal.str i)])]

/-- A metadata document with a single `colList` entry. -/
def mkMetaXml (docId title colId : String) : Xml :=
  Xml.elem "trpDocMetadata" []
    [Xml.elem "docId" [] [Xml.text docId],
     Xml.elem "title" [] [Xml.text title],
     Xml.elem "collectionList" []
       [Xml.elem "colList" [] [Xml.elem "colId" [] [Xml.text colId]]]]

/-- A bundle whose document belongs to collection 7. -/
def bundleCol7 : Bundle :=
  { dir := "/data/doc42",
    metadata := mkMetaXml "42" "Sample" "7",
    mets := Xml.elem "ns3:mets" [] [],
    files := [] }

/-- A division with one image pointer and `ORDER="01"`. -/
def divOrder01 : DVal :=
  DVal.dict [("ns3:fptr", DVal.list [mkFptr "IMG_1"]), ("@ORDER", DVal.str "01")]

/-- A division with one image pointer and `ORDER="1"`. -/
def divImgOnly : DVal :=
  DVal.dict [("ns3:fptr", DVal.list [mkFptr "IMG_1"]), ("@ORDER", DVal.str "1")]

/-- A division with image and ALTO pointers but no PAGEXML pointer. -/
def divImgAlto : DVal :=
  DVal.dict [("ns3:fptr", DVal.list (["IMG_1", "ALTO_2"].map mkFptr)),
             ("@ORDER", DVal.str "1")]

/-- A division with no image pointer at all. -/
def divNoImg : DVal :=
  DVal.dict [("ns3:fptr", DVal.list [mkFptr "ALTO_2"]), ("@ORDER", DVal.str "1")]

/-- A division whose image pointer has no entry in the path mapping. -/
def divUnmappedImg : DVal :=
  DVal.dict [("ns3:fptr", DVal.list [mkFptr "IMG_9"]), ("@ORDER", DVal.str "1")]

/-- A division whose ALTO pointer has no entry in the path mapping. -/
def divUnmappedAlto : DVal :=
  DVal.dict [("ns3:fptr", DVal.list (["IMG_1", "ALTO_9"].map mkFptr)),
             ("@ORDER", DVal.str "1")]

/-- A division whose PAGEXML pointer has no entry in the path mapping. -/
def divUnmappedPage : DVal :=
  DVal.dict [("ns3:fptr", DVal.list (["IMG_1", "PAGEXML_9"].map mkFptr)),
             ("@ORDER", DVal.str "1")]

/-- A path mapping knowing only the image id. -/
def pathsImg : List (String × String) := [("IMG_1", "p.jpg")]

/-- Path mapping for `divImgAlto`. -/
def pathsImgAlto : List (String × String) :=
  [("IMG_1", "0001.jpg"), ("ALTO_2", "alto/0001.xml")]

/-- File table holding the ALTO layer referenced by `pathsImgAlto`. -/
def filesAlto : List (String × String) := [("/r/alto/0001.xml", "alto text")]

/-- A structure document with one file entry whose href is percent-encoded. -/
def metsDPercent : DVal :=
  DVal.dict [("ns3:mets", DVal.dict
    [("ns3:fileSec", DVal.dict
      [("ns3:fileGrp", DVal.dict
        [("ns3:fileGrp", DVal.list
          [DVal.dict [("ns3:file", DVal.list
            [DVal.dict [("@ID", DVal.str "IMG_1"),
                        ("ns3:FLocat", DVal.dict [("@ns2:href", DVal.str "a%20b.xml")])]])]])])])])]

/-! ## Helper lemmas -/

theorem ok_bind {α β : Type} (x : α) (f : α → Except String β) :
    (Except.ok x >>= f) = f x := rfl

theorem error_bind {α β : Type} (e : String) (f : α → Except String β) :
    ((Except.error e : Except String α) >>= f) = Except.error e := rfl

theorem process_structs_append (dir : String) (docId : Int)
    (paths files : List (String × String)) (ds1 ds2 : List DVal) :
    process_structs dir docId paths files (ds1 ++ ds2)
      = match process_structs dir docId paths files ds1 with
        | (rs, some e) => (rs, some e)
        | (rs, none) =>
            ((rs ++ (process_structs dir docId paths files ds2).1,
              (process_structs dir docId paths files ds2).2)) := by
  induction ds1 with
  | nil => simp [process_structs]
  | cons d1 ds1' ih =>
      simp only [List.cons_append, process_structs]
      cases assemble_page_record dir docId paths files d1 with
      | error e => simp
      | ok r =>
          dsimp only
          rw [List.append_eq, ih]
          cases hp : process_structs dir docId paths files ds1' with
          | mk rs1 err1 => cases err1 <;> simp

theorem findFileKids_eq_flatten (name : String) (p : List String) :
    ∀ cs : List Entry, findFileKids name p cs = (cs.map (findFileE name p)).flatten := by
  intro cs
  induction cs with
  | nil => rfl
  | cons c cs ih => simp [findFileKids, ih]

theorem dLookup_append_absent (m : List (String × String)) (k v : String)
    (h : m.any (fun p => p.1 == k) = false) :
    dLookup (m ++ [(k, v)]) k = some v := by
  induction m with
  | nil => simp [dLookup, List.find?]
  | cons p rest ih =>
      simp only [List.any_cons, Bool.or_eq_false_iff] at h
      simp only [List.cons_append, dLookup, List.find?, h.1]
      exact ih h.2

theorem dLookup_map_replace (m : List (String × String)) (k v : String)
    (h : m.any (fun p => p.1 == k) = true) :
    dLookup (m.map (fun p => if p.1 == k then (k, v) else p)) k = some v := by
  induction m with
  | nil => simp at h
  | cons p rest ih =>
      cases hp : (p.1 == k) with
      | true => simp [dLookup, List.find?, hp]
      | false =>
          simp only [List.any_cons, hp, Bool.false_or] at h
          simpa [dLookup, List.find?, hp] using ih h

theorem dLookup_dictInsert_self (m : List (String × String)) (k v : String) :
    dLookup (dictInsert m k v) k = some v := by
  unfold dictInsert
  cases hany : m.any (fun p => p.1 == k) with
  | true => simpa [hany] using dLookup_map_replace m k v hany
  | false => simpa [hany] using dLookup_append_absent m k v hany

theorem dLookup_map_replace_other (m : List (String × String)) (k' v k : String)
    (h : (k' == k) = false) :
    dLookup (m.map (fun p => if p.1 == k' then (k', v) else p)) k = dLookup m k := by
  induction m with
  | nil => rfl
  | cons p rest ih =>
      cases hp : (p.1 == k') with
      | true =>
          have hpk : p.1 = k' := by simpa using hp
          simpa [dLookup, List.find?, hp, hpk, h] using ih
      | false =>
          cases hpk : (p.1 == k) with
          | true => simp [dLookup, List.find?, hp, hpk]
          | false => simpa [dLookup, List.find?, hp, hpk] using ih

theorem dLookup_append_other (m : List (String × String)) (k' v k : String)
    (h : (k' == k) = false) :
    dLookup (m ++ [(k', v)]) k = dLookup m k := by
  induction m with
  | nil => simp [dLookup, List.find?, h]
  | cons p rest ih =>
      cases hpk : (p.1 == k) with
      | true => simp [dLookup, List.find?, hpk]
      | false => simpa [dLookup, List.find?, hpk] using ih

theorem dLookup_dictInsert_other (m : List (String × String)) (k' v k : String)
    (h : (k' == k) = false) :
    dLookup (dictInsert m k' v) k = dLookup m k := by
  unfold dictInsert
  cases hany : m.any (fun p => p.1 == k') with
  | true => simpa [hany] using dLookup_map_replace_other m k' v k h
  | false => simpa [hany] using dLookup_append_other m k' v k h

theorem foldl_insert_no_key (k : String) :
    ∀ (es : List (String × String)) (acc : List (String × String)),
      (∀ p ∈ es, (p.1 == k) = false) →
      dLookup (es.foldl (fun m p => dictInsert m p.1 (unquote p.2)) acc) k
        = dLookup acc k := by
  intro es
  induction es with
  | nil => intro acc _; rfl
  | cons p rest ih =>
      intro acc h
      simp only [List.foldl_cons]
      rw [ih _ (fun q hq => h q (List.mem_cons_of_mem p hq))]
      exact dLookup_dictInsert_other acc p.1 (unquote p.2) k (h p (List.mem_cons_self p rest))

theorem buildPaths_unique_key (k h : String) :
    ∀ (es : List (String × String)) (acc : List (String × String)),
      es.filter (fun p => p.1 == k) = [(k, h)] →
      dLookup (es.foldl (fun m p => dictInsert m p.1 (unquote p.2)) acc) k
        = some (unquote h) := by
  intro es
  induction es with
  | nil => intro acc hf; simp [List.filter] at hf
  | cons p rest ih =>
      intro acc hf
      cases hp : (p.1 == k) with
      | true =>
          simp only [List.filter_cons, hp, if_true] at hf
          injection hf with hf1 hf2
          subst hf1
          simp only [List.foldl_cons]
          rw [foldl_insert_no_key k rest _ ?hrest]
          · exact dLookup_dictInsert_self acc k (unquote h)
          case hrest =>
            intro q hq
            have := List.filter_eq_nil_iff.mp hf2 q hq
            simpa using this
      | false =>
          simp only [List.filter_cons, hp, if_false] at hf
          simp only [List.foldl_cons]
          exact ih _ hf

/-! ## Claim theorems -/

/-- Claim C4: the proprietary-metadata stripping function removes both the
self-closing and the content-bearing form of the fixed-name tag:
`<p>hello<TranskribusMetadata attr="x"/>world</p>` and
`<p>hello<TranskribusMetadata attr="x">junk</TranskribusMetadata>world</p>`
both reduce to `<p>helloworld</p>`. -/
theorem claim_C4 :
    remove_transkribus_metadata "<p>hello<TranskribusMetadata attr=\"x\"/>world</p>"
        = "<p>helloworld</p>"
  ∧ remove_transkribus_metadata
        "<p>hello<TranskribusMetadata attr=\"x\">junk</TranskribusMetadata>world</p>"
        = "<p>helloworld</p>" :=
  ⟨rfl, rfl⟩

/-- Claim C3: for a directory whose immediate children include a file with
the exact target name the locator yields exactly that one file (so nothing
from the subdirectories), and otherwise it recurses depth-first into every
immediate child, concatenating all matches found within. -/
theorem claim_C3 (name d : String) (p : List String) (cs : List Entry) :
    (cs.any (isFileNamed name) = true →
       findFileE name p (Entry.dir d cs) = [p ++ [d, name]])
  ∧ (cs.any (isFileNamed name) = false →
       findFileE name p (Entry.dir d cs) = (cs.map (findFileE name (p ++ [d]))).flatten) := by
  constructor
  · intro h
    simp [findFileE, h]
  · intro h
    simp [findFileE, h, findFileKids_eq_flatten]

/-- Claim C3 witness: a root with an immediate `metadata.xml` and a nested
`metadata.xml` in a subdirectory yields only the immediate one. -/
theorem claim_C3_witness :
    ([Entry.file "metadata.xml",
      Entry.dir "sub" [Entry.file "metadata.xml"]].any (isFileNamed "metadata.xml") = true)
  ∧ findFileE "metadata.xml" []
      (Entry.dir "root"
        [Entry.file "metadata.xml", Entry.dir "sub" [Entry.file "metadata.xml"]])
      = [["root", "metadata.xml"]] :=
  ⟨rfl,
   (claim_C3 "metadata.xml" "root" []
      [Entry.file "metadata.xml", Entry.dir "sub" [Entry.file "metadata.xml"]]).1 rfl⟩

/-- Claim C5: per prefix class the classifier picks the first pointer id
with that prefix (absent when none matches); in particular file-ids
`["IMG_1","ALTO_2"]` give image `IMG_1`, layer a `ALTO_2`, layer b absent,
and the assembled record's layer b text is the empty string. -/
theorem claim_C5 :
    (∀ (pre : String) (ids : List String),
       firstId pre (ids.map mkFptr) = Except.ok (ids.find? (fun i => strStartsWith i pre)))
  ∧ firstId "IMG_" (["IMG_1", "ALTO_2"].map mkFptr) = Except.ok (some "IMG_1")
  ∧ firstId "ALTO_" (["IMG_1", "ALTO_2"].map mkFptr) = Except.ok (some "ALTO_2")
  ∧ firstId "PAGEXML_" (["IMG_1", "ALTO_2"].map mkFptr) = Except.ok none
  ∧ Except.map PageRecord.page
      (assemble_page_record "/r" 42 pathsImgAlto filesAlto divImgAlto) = Except.ok "" := by
  refine ⟨?_, rfl, rfl, rfl, rfl⟩
  intro pre ids
  induction ids with
  | nil => rfl
  | cons i rest ih =>
      cases h : strStartsWith i pre with
      | true => simp [firstId, mkFptr, dGet, asStr, List.find?, h, ok_bind]
      | false => simp [firstId, mkFptr, dGet, asStr, List.find?, h, ok_bind, ih]

/-- Claim C2 (amended): the `sequence` field of a successfully assembled
record is the division's `ORDER` attribute string verbatim — the source
applies no `int()` conversion to it (integer typing is applied downstream
by the external dataset schema). -/
theorem claim_C2_amended (dir : String) (docId : Int) (paths files : List (String × String))
    (struct : DVal) (r : PageRecord)
    (h : assemble_page_record dir docId paths files struct = Except.ok r) :
    dGet struct "@ORDER" = Except.ok (DVal.str r.sequence) := by
  unfold assemble_page_record at h
  cases h1 : dGet struct "ns3:fptr" <;> rw [h1] at h <;>
    simp only [ok_bind, error_bind] at h
  case error e => exact Except.noConfusion h
  case ok fv =>
  cases h2 : asList fv <;> rw [h2] at h <;> simp only [ok_bind, error_bind] at h
  case error e => exact Except.noConfusion h
  case ok fptrs =>
  cases h3 : firstId "IMG_" fptrs <;> rw [h3] at h <;> simp only [ok_bind, error_bind] at h
  case error e => exact Except.noConfusion h
  case ok imgId =>
  cases h4 : firstId "ALTO_" fptrs <;> rw [h4] at h <;> simp only [ok_bind, error_bind] at h
  case error e => exact Except.noConfusion h
  case ok altoId =>
  cases h5 : firstId "PAGEXML_" fptrs <;> rw [h5] at h <;> simp only [ok_bind, error_bind] at h
  case error e => exact Except.noConfusion h
  case ok pageId =>
  cases h6 : requireImgKey imgId <;> rw [h6] at h <;> simp only [ok_bind, error_bind] at h
  case error e => exact Except.noConfusion h
  case ok imgKey =>
  cases h7 : keyLookup paths imgKey <;> rw [h7] at h <;> simp only [ok_bind, error_bind] at h
  case error e => exact Except.noConfusion h
  case ok imgRel =>
  cases h8 : dGet struct "@ORDER" <;> rw [h8] at h <;> simp only [ok_bind, error_bind] at h
  case error e => exact Except.noConfusion h
  case ok ov =>
  cases h9 : asStr ov <;> rw [h9] at h <;> simp only [ok_bind, error_bind] at h
  case error e => exact Except.noConfusion h
  case ok order =>
  cases ov <;> simp only [asStr] at h9 <;> try exact Except.noConfusion h9
  case str s =>
  injection h9 with h9
  subst h9
  cases h10 : resolveAlto dir paths files altoId <;> rw [h10] at h <;>
    simp only [ok_bind, error_bind] at h
  case error e => exact Except.noConfusion h
  case ok altoText =>
  cases h11 : resolvePage dir paths files pageId <;> rw [h11] at h <;>
    simp only [ok_bind, error_bind] at h
  case error e => exact Except.noConfusion h
  case ok pageText =>
  injection h with h
  rw [← h]

/-- Claim C2 counterexample: a division with `ORDER="01"` yields a record
whose `sequence` field is the string `"01"`, not the integer value `1` of
the attribute (whose canonical rendering is `"1"`): the sequence field is
not an integer. -/
theorem claim_C2_counterexample :
    Except.map PageRecord.sequence
        (assemble_page_record "/r" 42 pathsImg [] divOrder01) = Except.ok "01"
  ∧ pyInt "01" = Except.ok 1
  ∧ "01" ≠ toString (1 : Int) :=
  ⟨rfl, rfl, by decide⟩

/-- Claim C2 witness for the amended statement, at a concrete division. -/
theorem claim_C2_witness :
    assemble_page_record "/r" 1 pathsImg [] divImgOnly
        = Except.ok { image := "/r/p.jpg", doc_id := 1, sequence := "1", alto := "", page := "" }
  ∧ dGet divImgOnly "@ORDER" = Except.ok (DVal.str
      ({ image := "/r/p.jpg", doc_id := 1, sequence := "1", alto := "", page := "" :
          PageRecord }).sequence) :=
  ⟨rfl, claim_C2_amended "/r" 1 pathsImg [] divImgOnly _ rfl⟩

/-- Claim C1: when a non-empty collection filter does not intersect a
bundle's collection ids, that bundle contributes zero page records and the
whole extraction terminates at that bundle — the run's output is exactly
the output of the run truncated before that bundle, whatever comes after. -/
theorem claim_C1 (cols : List Int) (bs1 bs2 : List Bundle) (b : Bundle) (dcs : List Int)
    (h1 : getDocCollections (parse_xml_model ["colList"] b.metadata) = Except.ok dcs)
    (h2 : cols ≠ [])
    (h3 : ∀ c ∈ cols, c ∉ dcs) :
    dataset_generator_transkribus cols (bs1 ++ b :: bs2)
      = dataset_generator_transkribus cols bs1 := by
  have hcont : ∀ c ∈ cols, dcs.contains c = false := by
    intro c hc
    cases hcc : dcs.contains c with
    | false => rfl
    | true =>
        rcases List.contains_iff_exists_mem_beq.mp hcc with ⟨x, hx, hbeq⟩
        have hcx : c = x := by simpa using hbeq
        exact absurd hx (hcx ▸ h3 c hc)
  have hcond : (!cols.isEmpty && !cols.any (fun c => dcs.contains c)) = true := by
    simp only [Bool.and_eq_true, Bool.not_eq_true']
    exact ⟨List.isEmpty_eq_false.mpr h2,
      List.any_eq_false.mpr (fun x hx => by simpa using h3 x hx)⟩
  have hstep : bundleStep cols b = Sum.inl ([], none) := by
    simp only [bundleStep]
    rw [h1]
    dsimp only
    rw [if_pos hcond]
  induction bs1 with
  | nil =>
      simp only [List.nil_append, dataset_generator_transkribus, hstep]
  | cons b' bs1' ih =>
      simp only [List.cons_append, dataset_generator_transkribus]
      cases bundleStep cols b' with
      | inl out => rfl
      | inr rs => simp [ih]

/-- Claim C1 witness: a single bundle in collection 7 scanned under filter
`{9}` yields zero records. -/
theorem claim_C1_witness :
    getDocCollections (parse_xml_model ["colList"] bundleCol7.metadata) = Except.ok [7]
  ∧ ([9] : List Int) ≠ []
  ∧ (∀ c ∈ ([9] : List Int), c ∉ ([7] : List Int))
  ∧ dataset_generator_transkribus [9] [bundleCol7] = ([], none) :=
  ⟨rfl, by decide, by decide,
   (claim_C1 [9] [] [] bundleCol7 [7] rfl (by decide) (by decide)).trans rfl⟩

/-- Claim C6: when the image file id is absent from the division's pointer
list, or present but missing from the path mapping, record assembly fails
with a lookup error instead of yielding a record, and the page loop stops
there: no record of that division nor of any later division is produced. -/
theorem claim_C6 :
    (∀ (dir : String) (docId : Int) (paths files : List (String × String))
       (struct : DVal) (fptrs : List DVal) (ao po : Option String),
       dGet struct "ns3:fptr" = Except.ok (DVal.list fptrs) →
       firstId "IMG_" fptrs = Except.ok none →
       firstId "ALTO_" fptrs = Except.ok ao →
       firstId "PAGEXML_" fptrs = Except.ok po →
       assemble_page_record dir docId paths files struct = Except.error "KeyError: None")
  ∧ (∀ (dir : String) (docId : Int) (paths files : List (String × String))
       (struct : DVal) (fptrs : List DVal) (i : String) (ao po : Option String),
       dGet struct "ns3:fptr" = Except.ok (DVal.list fptrs) →
       firstId "IMG_" fptrs = Except.ok (some i) →
       firstId "ALTO_" fptrs = Except.ok ao →
       firstId "PAGEXML_" fptrs = Except.ok po →
       dLookup paths i = none →
       assemble_page_record dir docId paths files struct
         = Except.error ("KeyError: " ++ i))
  ∧ (∀ (dir : String) (docId : Int) (paths files : List (String × String))
       (ds1 : List DVal) (d : DVal) (ds2 : List DVal) (rs : List PageRecord) (e : String),
       process_structs dir docId paths files ds1 = (rs, none) →
       assemble_page_record dir docId paths files d = Except.error e →
       process_structs dir docId paths files (ds1 ++ d :: ds2) = (rs, some e)) := by
  refine ⟨?_, ?_, ?_⟩
  · intro dir docId paths files struct fptrs ao po h0 ha hb hc
    simp [assemble_page_record, h0, ha, hb, hc, asList, requireImgKey, ok_bind, error_bind]
  · intro dir docId paths files struct fptrs i ao po h0 ha hb hc hmap
    simp [assemble_page_record, h0, ha, hb, hc, hmap, asList, requireImgKey, keyLookup,
      ok_bind, error_bind]
  · intro dir docId paths files ds1 d ds2 rs e hok herr
    rw [process_structs_append dir docId paths files ds1 (d :: ds2), hok]
    simp [process_structs, herr]

/-- Claim C6 witness: a division with no image pointer fails with
`KeyError: None`; one whose image id is unmapped fails with its key; a
division list starting with the failing division yields no records. -/
theorem claim_C6_witness :
    dGet divNoImg "ns3:fptr" = Except.ok (DVal.list [mkFptr "ALTO_2"])
  ∧ assemble_page_record "/r" 42 pathsImg [] divNoImg = Except.error "KeyError: None"
  ∧ assemble_page_record "/r" 42 pathsImg [] divUnmappedImg
      = Except.error "KeyError: IMG_9"
  ∧ process_structs "/r" 42 pathsImg [] [divNoImg] = ([], some "KeyError: None") := by
  have ha : assemble_page_record "/r" 42 pathsImg [] divNoImg
      = Except.error "KeyError: None" :=
    claim_C6.1 "/r" 42 pathsImg [] divNoImg [mkFptr "ALTO_2"] (some "ALTO_2") none
      rfl rfl rfl rfl
  have hb : assemble_page_record "/r" 42 pathsImg [] divUnmappedImg
      = Except.error "KeyError: IMG_9" :=
    claim_C6.2.1 "/r" 42 pathsImg [] divUnmappedImg [mkFptr "IMG_9"] "IMG_9" none none
      rfl rfl rfl rfl rfl
  exact ⟨rfl, ha, hb,
    claim_C6.2.2 "/r" 42 pathsImg [] [] divNoImg [] [] "KeyError: None" rfl ha⟩

/-- Claim C9: a raw-OCR or curated layer id that is present in the pointer
list but missing from the path mapping raises a lookup error (no empty
string substitution); the empty-string default applies exactly when the
layer id itself is absent. -/
theorem claim_C9 :
    (∀ (dir : String) (docId : Int) (paths files : List (String × String))
       (struct : DVal) (fptrs : List DVal) (im rel o i : String) (po : Option String),
       dGet struct "ns3:fptr" = Except.ok (DVal.list fptrs) →
       firstId "IMG_" fptrs = Except.ok (some im) →
       firstId "ALTO_" fptrs = Except.ok (some i) →
       firstId "PAGEXML_" fptrs = Except.ok po →
       dLookup paths im = some rel →
       dGet struct "@ORDER" = Except.ok (DVal.str o) →
       dLookup paths i = none →
       assemble_page_record dir docId paths files struct
         = Except.error ("KeyError: " ++ i))
  ∧ (∀ (dir : String) (docId : Int) (paths files : List (String × String))
       (struct : DVal) (fptrs : List DVal) (im rel o i : String),
       dGet struct "ns3:fptr" = Except.ok (DVal.list fptrs) →
       firstId "IMG_" fptrs = Except.ok (some im) →
       firstId "ALTO_" fptrs = Except.ok none →
       firstId "PAGEXML_" fptrs = Except.ok (some i) →
       dLookup paths im = some rel →
       dGet struct "@ORDER" = Except.ok (DVal.str o) →
       dLookup paths i = none →
       assemble_page_record dir docId paths files struct
         = Except.error ("KeyError: " ++ i))
  ∧ (∀ (dir : String) (docId : Int) (paths files : List (String × String))
       (struct : DVal) (fptrs : List DVal) (im rel o : String),
       dGet struct "ns3:fptr" = Except.ok (DVal.list fptrs) →
       firstId "IMG_" fptrs = Except.ok (some im) →
       firstId "ALTO_" fptrs = Except.ok none →
       firstId "PAGEXML_" fptrs = Except.ok none →
       dLookup paths im = some rel →
       dGet struct "@ORDER" = Except.ok (DVal.str o) →
       assemble_page_record dir docId paths files struct
         = Except.ok { image := pathJoin dir rel, doc_id := docId, sequence := o,
                       alto := "", page := "" }) := by
  refine ⟨?_, ?_, ?_⟩
  · intro dir docId paths files struct fptrs im rel o i po h0 ha hb hc hm ho hu
    simp [assemble_page_record, h0, ha, hb, hc, hm, ho, hu, asList, requireImgKey,
      keyLookup, asStr, resolveAlto, ok_bind, error_bind]
  · intro dir docId paths files struct fptrs im rel o i h0 ha hb hc hm ho hu
    simp [assemble_page_record, h0, ha, hb, hc, hm, ho, hu, asList, requireImgKey,
      keyLookup, asStr, resolveAlto, resolvePage, ok_bind, error_bind]
  · intro dir docId paths files struct fptrs im rel o h0 ha hb hc hm ho
    simp [assemble_page_record, h0, ha, hb, hc, hm, ho, asList, requireImgKey,
      keyLookup, asStr, resolveAlto, resolvePage, ok_bind, error_bind]

/-- Claim C7: for every file entry of the structure document, the path
mapping stores the percent-decoded form of its location reference (stated
for ids carried by exactly one entry, as dict keys are); in particular
`a%20b.xml` decodes to `a b.xml`. -/
theorem claim_C7 :
    (∀ (mets : DVal) (es : List (String × String)) (k h : String),
       getFileEntries mets = Except.ok es →
       es.filter (fun p => p.1 == k) = [(k, h)] →
       dLookup (buildPaths es) k = some (unquote h))
  ∧ unquote "a%20b.xml" = "a b.xml" := by
  constructor
  · intro mets es k h _ hf
    exact buildPaths_unique_key k h es [] hf
  · rfl

/-- Claim C7 witness: a concrete structure document with one file entry
mapping `IMG_1` to `a%20b.xml` resolves to the path `a b.xml`. -/
theorem claim_C7_witness :
    getFileEntries metsDPercent = Except.ok [("IMG_1", "a%20b.xml")]
  ∧ [("IMG_1", "a%20b.xml")].filter (fun p => p.1 == "IMG_1")
      = [("IMG_1", "a%20b.xml")]
  ∧ dLookup (buildPaths [("IMG_1", "a%20b.xml")]) "IMG_1" = some "a b.xml" :=
  ⟨rfl, rfl,
   (claim_C7.1 metsDPercent [("IMG_1", "a%20b.xml")] "IMG_1" "a%20b.xml" rfl rfl).trans rfl⟩

/-- Claim C8: a metadata document whose collectionList has exactly one
colList entry still parses to a one-element integer list (the entry is
forced to a list by `force_list=("colList",)`, never a bare scalar). -/
theorem claim_C8 (docId title s : String) (n : Int) (h : pyInt s = Except.ok n) :
    getDocCollections (parse_xml_model ["colList"] (mkMetaXml docId title s))
      = Except.ok [n]
  ∧ (dGet (parse_xml_model ["colList"] (mkMetaXml docId title s)) "trpDocMetadata"
       >>= fun tdm => dGet tdm "collectionList" >>= fun cl => dGet cl "colList")
      = Except.ok (DVal.list [DVal.dict [("colId", DVal.str s)]]) := by
  constructor
  · have e1 : getDocCollections (parse_xml_model ["colList"] (mkMetaXml docId title s))
        = (pyInt s >>= fun v => Except.ok [v]) := rfl
    rw [e1, h]
    rfl
  · rfl

/-- Claim C8 witness: the single entry `colId = 7` parses to `[7]`. -/
theorem claim_C8_witness :
    pyInt "7" = Except.ok 7
  ∧ getDocCollections (parse_xml_model ["colList"] (mkMetaXml "42" "T" "7"))
      = Except.ok [7] :=
  ⟨rfl, (claim_C8 "42" "T" "7" 7 rfl).1⟩

/-- Claim C9 witness: unmapped ALTO id and unmapped PAGEXML id each raise
their key; a division with neither layer id assembles with empty strings. -/
theorem claim_C9_witness :
    assemble_page_record "/r" 42 pathsImg [] divUnmappedAlto
      = Except.error "KeyError: ALTO_9"
  ∧ assemble_page_record "/r" 42 pathsImg [] divUnmappedPage
      = Except.error "KeyError: PAGEXML_9"
  ∧ assemble_page_record "/r" 42 pathsImg [] divImgOnly
      = Except.ok { image := "/r/p.jpg", doc_id := 42, sequence := "1",
                    alto := "", page := "" } := by
  refine ⟨?_, ?_, ?_⟩
  · exact claim_C9.1 "/r" 42 pathsImg [] divUnmappedAlto
      (["IMG_1", "ALTO_9"].map mkFptr) "IMG_1" "p.jpg" "1" "ALTO_9" none
      rfl rfl rfl rfl rfl rfl rfl
  · exact claim_C9.2.1 "/r" 42 pathsImg [] divUnmappedPage
      (["IMG_1", "PAGEXML_9"].map mkFptr) "IMG_1" "p.jpg" "1" "PAGEXML_9"
      rfl rfl rfl rfl rfl rfl rfl
  · exact (claim_C9.2.2 "/r" 42 pathsImg [] divImgOnly [mkFptr "IMG_1"]
      "IMG_1" "p.jpg" "1" rfl rfl rfl rfl rfl rfl).trans rfl

/-! ## Support lemmas for the whitespace behaviour of the tag pattern -/

theorem stripLit_self_append (l cs : List Char) : stripLit l (l ++ cs) = some cs := by
  induction l with
  | nil => rfl
  | cons c l ih => simp [stripLit, ih]

theorem stripLit_openLit_ne (c : Char) (rest : List Char) (h : c ≠ '<') :
    stripLit openLit (c :: rest) = none := by
  have he : openLit = '<' :: "TranskribusMetadata".data := rfl
  rw [he]
  simp [stripLit, h]

theorem matchTagAt_none_of_no_lt (cs : List Char) (h : ∀ c ∈ cs, c ≠ '<') :
    matchTagAt cs = none := by
  unfold matchTagAt
  cases hdw : cs.dropWhile isPyWS with
  | nil => rfl
  | cons c rest =>
      have hc : c ∈ cs :=
        (List.dropWhile_sublist isPyWS).subset (hdw ▸ List.mem_cons_self c rest)
      rw [stripLit_openLit_ne c rest (h c hc)]
      rfl

theorem subScanF_no_lt (fu : Nat) :
    ∀ cs : List Char, (∀ c ∈ cs, c ≠ '<') → subScanF fu cs = cs := by
  induction fu with
  | zero => intro cs _; rfl
  | succ fu ih =>
      intro cs h
      cases cs with
      | nil => rfl
      | cons c rest =>
          simp [subScanF, matchTagAt_none_of_no_lt _ h,
            ih rest (fun x hx => h x (List.mem_cons_of_mem c hx))]

theorem subScanF_match_step (fu : Nat) (cs rest : List Char) (hne : cs ≠ [])
    (h : matchTagAt cs = some rest) : subScanF (fu + 1) cs = subScanF fu rest := by
  cases cs with
  | nil => exact absurd rfl hne
  | cons c cs' => simp [subScanF, h]

theorem subScanF_skip_step (fu : Nat) (c : Char) (cs : List Char)
    (h : matchTagAt (c :: cs) = none) :
    subScanF (fu + 1) (c :: cs) = c :: subScanF fu cs := by
  simp [subScanF, h]

theorem matchTagAt_at_tag (w mid b : List Char)
    (hw : ∀ c ∈ w, isPyWS c = true) (hmid : ∀ c ∈ mid, c ≠ '>')
    (hb : ∀ c ∈ b, c ≠ '<') :
    matchTagAt (w ++ openLit ++ mid ++ '>' :: b) = some b := by
  unfold matchTagAt
  have h1 : (w ++ (openLit ++ (mid ++ '>' :: b))).dropWhile isPyWS
      = openLit ++ (mid ++ '>' :: b) := by
    rw [List.dropWhile_append_of_pos hw]
    have he : openLit ++ (mid ++ '>' :: b)
        = '<' :: ("TranskribusMetadata".data ++ (mid ++ '>' :: b)) := rfl
    rw [he, List.dropWhile_cons]
    simp [isPyWS]
  rw [List.append_assoc, List.append_assoc]
  rw [h1, stripLit_self_append]
  have h3 : consumeToGt (mid ++ '>' :: b) = some b := by
    unfold consumeToGt
    rw [List.dropWhile_append_of_pos (by intro a ha; simpa using hmid a ha)]
    rw [List.dropWhile_cons]
    simp
  have h4 : tryClose b = b := by
    unfold tryClose
    have hz : b.dropWhile (fun c => c ≠ '<') = [] := by
      rw [List.dropWhile_eq_nil_iff]
      intro x hx
      simpa using hb x hx
    rw [hz]
    rfl
  simp [h3, h4]

theorem matchTagAt_none_before_tag (a R : List Char) (hne : a ≠ [])
    (ha1 : ∀ c ∈ a, c ≠ '<')
    (ha2 : ∀ z, a.getLast? = some z → isPyWS z = false) :
    matchTagAt (a ++ R) = none := by
  have hlast : a.getLast hne ∈ a := List.getLast_mem hne
  have hlastws : isPyWS (a.getLast hne) = false :=
    ha2 _ (List.getLast?_eq_getLast_of_ne_nil hne)
  have hdwa : a.dropWhile isPyWS ≠ [] := by
    intro hnil
    have := List.dropWhile_eq_nil_iff.mp hnil _ hlast
    simp [hlastws] at this
  have hsplit : (a ++ R).dropWhile isPyWS = a.dropWhile isPyWS ++ R := by
    rw [List.dropWhile_append]
    simp [hdwa]
  unfold matchTagAt
  rw [hsplit]
  cases hdw : a.dropWhile isPyWS with
  | nil => exact absurd hdw hdwa
  | cons y ys =>
      have hy : y ∈ a :=
        (List.dropWhile_sublist isPyWS).subset (hdw ▸ List.mem_cons_self y ys)
      rw [List.cons_append, stripLit_openLit_ne y (ys ++ R) (ha1 y hy)]
      rfl

theorem subScanF_strip (mid b : List Char)
    (hmid : ∀ c ∈ mid, c ≠ '>') (hb : ∀ c ∈ b, c ≠ '<') :
    ∀ (a w : List Char) (fu : Nat),
      (∀ c ∈ a, c ≠ '<') →
      (∀ z, a.getLast? = some z → isPyWS z = false) →
      (∀ c ∈ w, isPyWS c = true) →
      (a ++ w ++ openLit ++ mid ++ '>' :: b).length ≤ fu →
      subScanF fu (a ++ w ++ openLit ++ mid ++ '>' :: b) = a ++ b := by
  intro a
  induction a with
  | nil =>
      intro w fu _ _ hw hfu
      have h20 : openLit.length = 20 := rfl
      cases fu with
      | zero =>
          exfalso
          simp only [List.nil_append, List.length_append, List.length_cons,
            Nat.le_zero] at hfu
          omega
      | succ fu =>
          simp only [List.nil_append] at hfu ⊢
          rw [subScanF_match_step fu _ b ?hne (matchTagAt_at_tag w mid b hw hmid hb)]
          · exact subScanF_no_lt fu b hb
          case hne =>
            intro hempty
            have := congrArg List.length hempty
            simp only [List.length_append, List.length_cons, List.length_nil] at this
            omega
  | cons c a' ih =>
      intro w fu ha1 ha2 hw hfu
      have hR : (c :: a') ++ w ++ openLit ++ mid ++ '>' :: b
          = c :: (a' ++ w ++ openLit ++ mid ++ '>' :: b) := by
        simp
      cases fu with
      | zero =>
          exfalso
          simp only [List.length_append, List.length_cons, Nat.le_zero] at hfu
          omega
      | succ fu =>
          have hnone : matchTagAt ((c :: a') ++ (w ++ openLit ++ mid ++ '>' :: b))
              = none := by
            refine matchTagAt_none_before_tag (c :: a') _ (by simp) ha1 ha2
          rw [hR, subScanF_skip_step fu c _ (by simpa [List.append_assoc] using hnone)]
          have ha1' : ∀ x ∈ a', x ≠ '<' :=
            fun x hx => ha1 x (List.mem_cons_of_mem c hx)
          have ha2' : ∀ z, a'.getLast? = some z → isPyWS z = false := by
            intro z hz
            cases a' with
            | nil => simp at hz
            | cons y ys =>
                exact ha2 z (by rw [List.getLast?_cons_cons]; exact hz)
          have hfu' : (a' ++ w ++ openLit ++ mid ++ '>' :: b).length ≤ fu := by
            rw [hR] at hfu
            simpa using Nat.le_of_succ_le_succ (by simpa using hfu)
          rw [ih w fu ha1' ha2' hw hfu']
          simp

/-- Claim C10: the pattern removes, together with each tag occurrence, the
entire run of whitespace immediately preceding the tag (the pattern's
leading greedy whitespace), so text separated from the tag by whitespace
is joined without that whitespace: for text `a` (no tag start, not ending
in whitespace), whitespace run `w`, any attribute text `mid`, and
following text `b` without `<`, stripping `a ++ w ++ <TranskribusMetadata
++ mid ++ > ++ b` gives `a ++ b`. -/
theorem claim_C10 (a w mid b : String)
    (ha1 : ∀ c ∈ a.data, c ≠ '<')
    (ha2 : (a.data.getLast?.all fun z => !isPyWS z) = true)
    (hw : ∀ c ∈ w.data, isPyWS c = true)
    (hmid : ∀ c ∈ mid.data, c ≠ '>')
    (hb : ∀ c ∈ b.data, c ≠ '<') :
    remove_transkribus_metadata (a ++ w ++ "<TranskribusMetadata" ++ mid ++ ">" ++ b)
      = a ++ b := by
  have ha2' : ∀ z, a.data.getLast? = some z → isPyWS z = false := by
    intro z hz
    rw [hz] at ha2
    simpa using ha2
  have hdata : (a ++ w ++ "<TranskribusMetadata" ++ mid ++ ">" ++ b).data
      = a.data ++ w.data ++ openLit ++ mid.data ++ '>' :: b.data := by
    simp only [String.data_append, List.append_assoc]
    rfl
  unfold remove_transkribus_metadata
  rw [hdata]
  rw [subScanF_strip mid.data b.data hmid hb a.data w.data _ ha1 ha2' hw (Nat.le_refl _)]
  cases a with
  | mk da =>
      cases b with
      | mk db => rfl

/-- Claim C10 witness: `x  <TranskribusMetadata attr="x"/>world` strips to
`xworld`, the two spaces before the tag removed with it. -/
theorem claim_C10_witness :
    (∀ c ∈ ("x" : String).data, c ≠ '<')
  ∧ ((("x" : String).data.getLast?.all fun z => !isPyWS z) = true)
  ∧ (∀ c ∈ ("  " : String).data, isPyWS c = true)
  ∧ (∀ c ∈ (" attr=\"x\"/" : String).data, c ≠ '>')
  ∧ (∀ c ∈ ("world" : String).data, c ≠ '<')
  ∧ remove_transkribus_metadata
      ("x" ++ "  " ++ "<TranskribusMetadata" ++ " attr=\"x\"/" ++ ">" ++ "world")
      = "x" ++ "world" :=
  ⟨by decide, by decide, by decide, by decide, by decide,
   claim_C10 "x" "  " " attr=\"x\"/" "world"
     (by decide) (by decide) (by decide) (by decide) (by decide)⟩

end Transkribus
